import Mathlib

/-!
Shallow embedding of the microtvm-device registry core
(`src/microtvm_device/device_utils.py` and `device_server.py`):
the `MicroDevice` record, the `MicroTVMPlatforms` registry/session state,
and the registry and RPC-handler operations the claims are about.
Python dicts are modelled as insertion-ordered association lists,
Python sets as lists used only through membership, and the
`random.randint(0, len-1)` draw in `GetPlatform` as an arbitrary
natural-number parameter reduced modulo the candidate count.
-/

namespace MicrotvmDevice

/-- One physical device record: `MicroDevice.__init__` in `device_utils.py`. -/
structure MicroDevice where
  type : String
  serial_number : String
  vid_hex : String
  pid_hex : String
  is_taken : Bool
  user : Option String
  enabled : Bool
deriving Repr, DecidableEq

/-- `MicroDevice.Free`: clears the lease mark and the holder. -/
def MicroDevice.Free (d : MicroDevice) : MicroDevice :=
  { d with is_taken := false, user := none }

/-- `MicroDevice.Enable(status)`: sets only the enabled flag. -/
def MicroDevice.Enable (d : MicroDevice) (status : Bool) : MicroDevice :=
  { d with enabled := status }

/-- Registry plus session table: `MicroTVMPlatforms.__init__`. -/
structure MicroTVMPlatforms where
  platforms : List MicroDevice
  serial_numbers : List String
  sessions : List (String × List String)
deriving Repr, DecidableEq

/-- Python `dict` lookup on the session table. -/
def lookupSession : List (String × List String) → String → Option (List String)
  | [], _ => none
  | kv :: rest, k => if kv.1 = k then some kv.2 else lookupSession rest k

/-- Python `dict[k] = v`: replace in place when the key exists, else append. -/
def setSession : List (String × List String) → String → List String →
    List (String × List String)
  | [], k, v => [(k, v)]
  | kv :: rest, k, v =>
    if kv.1 = k then (k, v) :: rest else kv :: setSession rest k v

/-- Python `dict[k].append(s)` on an existing key. -/
def appendSession : List (String × List String) → String → String →
    List (String × List String)
  | [], _, _ => []
  | kv :: rest, k, s =>
    if kv.1 = k then (kv.1, kv.2 ++ [s]) :: rest else kv :: appendSession rest k s

/-- `MicroTVMPlatforms.AddPlatform`: append unless the serial is already known. -/
def MicroTVMPlatforms.AddPlatform (st : MicroTVMPlatforms) (d : MicroDevice) :
    MicroTVMPlatforms :=
  if d.serial_number ∈ st.serial_numbers then st
  else { st with serial_numbers := st.serial_numbers ++ [d.serial_number],
                 platforms := st.platforms ++ [d] }

/-- Eligibility filter of `GetPlatform`: type matches, not taken, enabled. -/
def eligible (t : String) (d : MicroDevice) : Bool :=
  d.type = t && !d.is_taken && d.enabled

/-- The eligible platforms together with their positions in the list
(positions stand for Python object identity). -/
def deviceCandidates (st : MicroTVMPlatforms) (t : String) :
    List (Nat × MicroDevice) :=
  st.platforms.enum.filter (fun p => eligible t p.2)

/-- Marking a record allocated: `platform._is_taken = True; platform._user = username`. -/
def markTaken (d : MicroDevice) (username : String) : MicroDevice :=
  { d with is_taken := true, user := some username }

/-- Result of `MicroTVMPlatforms.GetPlatform`: a device together with the new
state, the `None` ("unavailable") return, or the `KeyError` raised by
`self._sessions[session_number]` when the session was never opened
(the state at the raise point is carried along). -/
inductive GPResult where
  | ok (device : MicroDevice) (st : MicroTVMPlatforms)
  | unavailable (st : MicroTVMPlatforms)
  | keyError (st : MicroTVMPlatforms)
deriving Repr, DecidableEq

/-- `MicroTVMPlatforms.GetPlatform(type, session_number, username)`.
The parameter `k` models the `random.randint(0, len(candidates)-1)` draw:
the selected candidate index is `k % candidates.length`, so every value the
Python draw can produce is a value of `k`. The device is marked taken and
the holder recorded before the session lookup, exactly as in the source. -/
def MicroTVMPlatforms.GetPlatform (st : MicroTVMPlatforms)
    (t sess username : String) (k : Nat) : GPResult :=
  let candidates := deviceCandidates st t
  if hc : candidates = [] then .unavailable st
  else
    let c := candidates.get ⟨k % candidates.length,
      Nat.mod_lt _ (List.length_pos.mpr hc)⟩
    let d2 := markTaken c.2 username
    let platforms2 := st.platforms.set c.1 d2
    match lookupSession st.sessions sess with
    | none => .keyError { st with platforms := platforms2 }
    | some _ =>
      .ok d2
        { st with
          platforms := platforms2,
          sessions := appendSession st.sessions sess c.2.serial_number }

/-- Body of `MicroTVMPlatforms.ReleasePlatform`: free the first record whose
serial matches; leave everything else in place. -/
def releaseList (s : String) : List MicroDevice → List MicroDevice
  | [] => []
  | d :: ds => if d.serial_number = s then d.Free :: ds else d :: releaseList s ds

/-- `MicroTVMPlatforms.ReleasePlatform(serial_number)`; the unknown-serial
case only logs a warning, so the state is returned unchanged. -/
def MicroTVMPlatforms.ReleasePlatform (st : MicroTVMPlatforms) (s : String) :
    MicroTVMPlatforms :=
  { st with platforms := releaseList s st.platforms }

/-- Body of `MicroTVMPlatforms.EnablePlatform`: set the enabled flag of the
first record whose serial matches and report whether one was found. -/
def enableList (s : String) (b : Bool) : List MicroDevice → Bool × List MicroDevice
  | [] => (false, [])
  | d :: ds =>
    if d.serial_number = s then (true, d.Enable b :: ds)
    else
      let r := enableList s b ds
      (r.1, d :: r.2)

/-- `MicroTVMPlatforms.EnablePlatform(serial_number, status)`. -/
def MicroTVMPlatforms.EnablePlatform (st : MicroTVMPlatforms) (s : String)
    (b : Bool) : Bool × MicroTVMPlatforms :=
  let r := enableList s b st.platforms
  (r.1, { st with platforms := r.2 })

/-- `MicroTVMPlatforms.GetDeviceWithType(device_type)`: first record of the
given type, as a value (`copy.copy`), else `None`. -/
def MicroTVMPlatforms.GetDeviceWithType (st : MicroTVMPlatforms) (t : String) :
    Option MicroDevice :=
  st.platforms.find? (fun d => d.type = t)

/-- `RPCRequest.RPCGetDeviceTypeInfo` in `device_server.py`: reads the VID and
PID of `GetDeviceWithType`'s result; when that is `None` the attribute access
raises, modelled as the error case. -/
def RPCGetDeviceTypeInfo (st : MicroTVMPlatforms) (t : String) :
    Except Unit (String × String) :=
  match st.GetDeviceWithType t with
  | none => .error ()
  | some d => .ok (d.vid_hex, d.pid_hex)

/-- `RPCRequest.RPCSessionRequest`: the freshly drawn ten-digit id is the
parameter `sess_num`; the handler stores an empty lease list under it. -/
def RPCSessionRequest (st : MicroTVMPlatforms) (sess_num : String) :
    MicroTVMPlatforms :=
  { st with sessions := setSession st.sessions sess_num [] }

/-- Releasing every serial of a list in order, as `RPCSessionClose`'s loop does. -/
def releaseAll (l : List String) (st : MicroTVMPlatforms) : MicroTVMPlatforms :=
  l.foldl (fun s sn => s.ReleasePlatform sn) st

/-- `RPCRequest.RPCSessionClose`: iterates `PLATFORMS._sessions[session_number]`
releasing each serial (a `KeyError` when the session is unknown is the error
case); the session entry itself is never deleted. -/
def RPCSessionClose (st : MicroTVMPlatforms) (sess : String) :
    Except Unit MicroTVMPlatforms :=
  match lookupSession st.sessions sess with
  | none => .error ()
  | some l => .ok (releaseAll l st)

/-- One row of the `__str__` listing (index column aside):
type, serial, availability, printed user, enabled. -/
structure Row where
  type : String
  serial : String
  available : Bool
  user : String
  enabled : Bool
deriving Repr, DecidableEq

/-- `str(device._user)`: Python prints `None` for the absent holder. -/
def strOfUser : Option String → String
  | none => "None"
  | some u => u

/-- The `__str__` row of one device. -/
def deviceRow (d : MicroDevice) : Row :=
  ⟨d.type, d.serial_number, !d.is_taken, strOfUser d.user, d.enabled⟩

/-- `s.lower()` as a list of characters; Python compares strings
lexicographically by code point, which is the `List Char` order. -/
def lowerKey (s : String) : List Char :=
  s.data.map Char.toLower

/-- The comparison `sorted` uses: `key=lambda l: l[0].lower()`,
i.e. the lower-cased type only. -/
def rowRel (r1 r2 : Row) : Prop :=
  lowerKey r1.type ≤ lowerKey r2.type

instance : DecidableRel rowRel := fun r1 r2 =>
  inferInstanceAs (Decidable (lowerKey r1.type ≤ lowerKey r2.type))

instance : IsTotal Row rowRel :=
  ⟨fun r1 r2 => le_total (lowerKey r1.type) (lowerKey r2.type)⟩

instance : IsTrans Row rowRel :=
  ⟨fun _ _ _ h1 h2 => le_trans h1 h2⟩

/-- `MicroTVMPlatforms.__str__`'s data rows:
`sorted(data, key=lambda l: l[0].lower())` — a stable sort on the
lower-cased type only, modelled by the stable `List.insertionSort`. -/
def listRows (st : MicroTVMPlatforms) : List Row :=
  List.insertionSort rowRel (st.platforms.map deviceRow)

/-- The ordering the specification asserts for the listing:
by type, then by serial, both case-insensitively. -/
def specOrdered (rows : List Row) : Prop :=
  rows.Pairwise (fun r1 r2 =>
    lowerKey r1.type < lowerKey r2.type ∨
    (lowerKey r1.type = lowerKey r2.type ∧ lowerKey r1.serial ≤ lowerKey r2.serial))

instance (rows : List Row) : Decidable (specOrdered rows) :=
  inferInstanceAs (Decidable (rows.Pairwise _))

/-- Decidable check of the session-list invariant: every serial recorded in
any session's lease list belongs to a device record that is currently
marked taken. -/
def sessionInvB (st : MicroTVMPlatforms) : Bool :=
  st.sessions.all fun kv => kv.2.all fun ser =>
    st.platforms.any fun d => d.serial_number = ser && d.is_taken

/-- Registering a whole inventory in order, as `LoadDeviceTable`'s loop does. -/
def addAll (l : List MicroDevice) (st : MicroTVMPlatforms) : MicroTVMPlatforms :=
  l.foldl (fun s d => s.AddPlatform d) st

/-- A fresh device record, as `MicroDevice.__init__` builds it. -/
def mkDev (t s : String) : MicroDevice :=
  ⟨t, s, "1366", "0105", false, none, true⟩

/-- The empty registry, as `MicroTVMPlatforms.__init__` builds it. -/
def emptyPlatforms : MicroTVMPlatforms := ⟨[], [], []⟩

/-- Example device used by concrete counterexamples and witnesses. -/
def devA : MicroDevice := mkDev "nano33ble" "SN1"

/-- A reachable example state: one registered device, one open session. -/
def regA : MicroTVMPlatforms :=
  RPCSessionRequest (emptyPlatforms.AddPlatform devA) "0000000100"

/-- The state after allocating `devA` to session `0000000100` for alice. -/
def regA1 : MicroTVMPlatforms :=
  ⟨[markTaken devA "alice"], ["SN1"], [("0000000100", ["SN1"])]⟩

/-- Example state with a session but no sessions matching `999...`:
one free device and no open session, for the unknown-session counterexample. -/
def regB : MicroTVMPlatforms := ⟨[devA], ["SN1"], []⟩

/-- Two devices of one type registered with serials out of order. -/
def regC : MicroTVMPlatforms :=
  ⟨[mkDev "due" "B", mkDev "due" "A"], ["B", "A"], []⟩

/-- An open session `0000000123` that already holds a lease. -/
def regD : MicroTVMPlatforms := ⟨[], [], [("0000000123", ["SN1"])]⟩

instance {ε α : Type} [DecidableEq ε] [DecidableEq α] : DecidableEq (Except ε α) :=
  fun x y =>
  match x, y with
  | .error a, .error b =>
    if h : a = b then .isTrue (congrArg Except.error h)
    else .isFalse fun hh => h (Except.error.inj hh)
  | .ok a, .ok b =>
    if h : a = b then .isTrue (congrArg Except.ok h)
    else .isFalse fun hh => h (Except.ok.inj hh)
  | .error _, .ok _ => .isFalse fun hh => Except.noConfusion hh
  | .ok _, .error _ => .isFalse fun hh => Except.noConfusion hh

lemma releaseList_nomatch (s : String) (ps : List MicroDevice)
    (h : ∀ d ∈ ps, d.serial_number ≠ s) : releaseList s ps = ps := by
  induction ps with
  | nil => rfl
  | cons d ds ih =>
    rw [releaseList, if_neg (h d (List.mem_cons_self d ds)),
      ih fun d' hd' => h d' (List.mem_cons_of_mem d hd')]

lemma releaseList_first (s : String) (l1 : List MicroDevice) (d : MicroDevice)
    (l2 : List MicroDevice) (h1 : ∀ d' ∈ l1, d'.serial_number ≠ s)
    (hd : d.serial_number = s) :
    releaseList s (l1 ++ d :: l2) = l1 ++ d.Free :: l2 := by
  induction l1 with
  | nil => simp [releaseList, hd]
  | cons e l1 ih =>
    rw [List.cons_append, releaseList, if_neg (h1 e (List.mem_cons_self e l1)),
      ih fun d' hd' => h1 d' (List.mem_cons_of_mem e hd'), List.cons_append]

lemma Free_serial (d : MicroDevice) : d.Free.serial_number = d.serial_number := rfl

lemma Free_Free (d : MicroDevice) : d.Free.Free = d.Free := rfl

lemma releaseList_idem (s : String) (ps : List MicroDevice) :
    releaseList s (releaseList s ps) = releaseList s ps := by
  induction ps with
  | nil => rfl
  | cons d ds ih =>
    by_cases h : d.serial_number = s
    · simp [releaseList, h, Free_serial, Free_Free]
    · simp [releaseList, h, ih]

lemma releaseList_comm (s t : String) (ps : List MicroDevice) :
    releaseList s (releaseList t ps) = releaseList t (releaseList s ps) := by
  by_cases hst : s = t
  · subst hst; rfl
  · induction ps with
    | nil => rfl
    | cons d ds ih =>
      by_cases hs : d.serial_number = s
      · have ht : d.serial_number ≠ t := by rw [hs]; exact hst
        simp [releaseList, hs, ht, Free_serial, hst]
      · by_cases ht : d.serial_number = t
        · simp [releaseList, hs, ht, Free_serial, Ne.symm hst]
        · simp [releaseList, hs, ht, ih]

lemma releasePlatform_sessions (st : MicroTVMPlatforms) (s : String) :
    (st.ReleasePlatform s).sessions = st.sessions := rfl

lemma releasePlatform_serials (st : MicroTVMPlatforms) (s : String) :
    (st.ReleasePlatform s).serial_numbers = st.serial_numbers := rfl

/-- C8. `Release(serial)` is idempotent; an unknown serial changes no state;
a known serial frees exactly the first matching record (leased becomes
false and the holder is cleared) and touches nothing else; the session
table and the serial set are never changed. -/
theorem releasePlatform_correct (st : MicroTVMPlatforms) (s : String) :
    (st.ReleasePlatform s).ReleasePlatform s = st.ReleasePlatform s ∧
    ((∀ d ∈ st.platforms, d.serial_number ≠ s) → st.ReleasePlatform s = st) ∧
    (∀ l1 d l2, st.platforms = l1 ++ d :: l2 →
      (∀ d' ∈ l1, d'.serial_number ≠ s) → d.serial_number = s →
      (st.ReleasePlatform s).platforms = l1 ++ d.Free :: l2 ∧
      d.Free.is_taken = false ∧ d.Free.user = none) ∧
    (st.ReleasePlatform s).sessions = st.sessions ∧
    (st.ReleasePlatform s).serial_numbers = st.serial_numbers := by
  refine ⟨?_, ?_, ?_, rfl, rfl⟩
  · show ({ st with platforms := releaseList s st.platforms } :
        MicroTVMPlatforms).ReleasePlatform s = _
    rw [MicroTVMPlatforms.ReleasePlatform, MicroTVMPlatforms.ReleasePlatform]
    simp [releaseList_idem]
  · intro h
    show ({ st with platforms := releaseList s st.platforms } :
        MicroTVMPlatforms) = st
    rw [releaseList_nomatch s st.platforms h]
  · intro l1 d l2 hsplit h1 hd
    refine ⟨?_, rfl, rfl⟩
    show releaseList s st.platforms = _
    rw [hsplit, releaseList_first s l1 d l2 h1 hd]

/-- Witness for C8 at a concrete state: releasing an unknown serial changes
nothing, and releasing the allocated device frees its record. -/
theorem releasePlatform_correct_witness :
    regA1.ReleasePlatform "ZZ" = regA1 ∧
    (regA1.ReleasePlatform "SN1").platforms = [(markTaken devA "alice").Free] := by
  constructor
  · exact (releasePlatform_correct regA1 "ZZ").2.1 (by decide)
  · exact ((releasePlatform_correct regA1 "SN1").2.2.1 [] (markTaken devA "alice") []
      (by decide) (by decide) (by decide)).1

lemma releasePlatform_comm (st : MicroTVMPlatforms) (s t : String) :
    (st.ReleasePlatform s).ReleasePlatform t =
      (st.ReleasePlatform t).ReleasePlatform s := by
  simp [MicroTVMPlatforms.ReleasePlatform, releaseList_comm]

lemma releasePlatform_idem (st : MicroTVMPlatforms) (s : String) :
    (st.ReleasePlatform s).ReleasePlatform s = st.ReleasePlatform s := by
  simp [MicroTVMPlatforms.ReleasePlatform, releaseList_idem]

lemma releaseAll_sessions (l : List String) (st : MicroTVMPlatforms) :
    (releaseAll l st).sessions = st.sessions := by
  induction l generalizing st with
  | nil => rfl
  | cons a l ih => rw [releaseAll, List.foldl_cons]; exact ih (st.ReleasePlatform a)

lemma releaseAll_releasePlatform (l : List String) (st : MicroTVMPlatforms)
    (s : String) :
    releaseAll l (st.ReleasePlatform s) = (releaseAll l st).ReleasePlatform s := by
  induction l generalizing st with
  | nil => rfl
  | cons a l ih =>
    rw [releaseAll, List.foldl_cons, releasePlatform_comm st s a]
    exact ih (st.ReleasePlatform a)

lemma releaseAll_idem (l : List String) (st : MicroTVMPlatforms) :
    releaseAll l (releaseAll l st) = releaseAll l st := by
  induction l generalizing st with
  | nil => rfl
  | cons a l ih =>
    have e : ∀ st' : MicroTVMPlatforms,
        releaseAll (a :: l) st' = releaseAll l (st'.ReleasePlatform a) :=
      fun _ => rfl
    rw [e, e st, ← releaseAll_releasePlatform, releasePlatform_idem, ih]

/-- C3 counterexample: closing session `0000000100` releases its device, but
the session entry is not discarded — it is still present afterward with its
old serial list, although the claim says the session no longer exists. -/
theorem sessionClose_counterexample :
    RPCSessionClose regA1 "0000000100" =
      .ok ⟨[(markTaken devA "alice").Free], ["SN1"], [("0000000100", ["SN1"])]⟩ ∧
    lookupSession
      ((⟨[(markTaken devA "alice").Free], ["SN1"],
        [("0000000100", ["SN1"])]⟩ : MicroTVMPlatforms)).sessions
      "0000000100" = some ["SN1"] := by
  decide

/-- C3 amended. `CloseSession(sessionId)` releases every serial in that
session's list, but the session entry is NOT discarded: the session table is
unchanged. Because `Release` is idempotent, calling `CloseSession` a second
time on the same session is a well-defined safe no-op: it raises no error and
returns the same state, with no double-release effect. -/
theorem sessionClose_correct (st : MicroTVMPlatforms) (sess : String)
    (l : List String) (h : lookupSession st.sessions sess = some l) :
    RPCSessionClose st sess = .ok (releaseAll l st) ∧
    (releaseAll l st).sessions = st.sessions ∧
    RPCSessionClose (releaseAll l st) sess = .ok (releaseAll l st) := by
  have hsess := releaseAll_sessions l st
  refine ⟨by rw [RPCSessionClose, h], hsess, ?_⟩
  rw [RPCSessionClose, hsess, h]
  show Except.ok (releaseAll l (releaseAll l st)) = _
  rw [releaseAll_idem]

/-- Witness for C3's amended theorem at a concrete allocated state. -/
theorem sessionClose_correct_witness :
    RPCSessionClose regA1 "0000000100" = .ok (releaseAll ["SN1"] regA1) ∧
    RPCSessionClose (releaseAll ["SN1"] regA1) "0000000100" =
      .ok (releaseAll ["SN1"] regA1) := by
  have h := sessionClose_correct regA1 "0000000100" ["SN1"] (by decide)
  exact ⟨h.1, h.2.2⟩

lemma addPlatform_mem_serials (st : MicroTVMPlatforms) (d : MicroDevice)
    (x : String) (hx : x ∈ st.serial_numbers) :
    x ∈ (st.AddPlatform d).serial_numbers := by
  rw [MicroTVMPlatforms.AddPlatform]
  split
  · exact hx
  · exact List.mem_append_left _ hx

lemma addPlatform_self_mem (st : MicroTVMPlatforms) (d : MicroDevice) :
    d.serial_number ∈ (st.AddPlatform d).serial_numbers := by
  rw [MicroTVMPlatforms.AddPlatform]
  split
  · assumption
  · exact List.mem_append_right _ (List.mem_singleton_self _)

lemma addAll_mem_serials_mono (l : List MicroDevice) (st : MicroTVMPlatforms)
    (x : String) (hx : x ∈ st.serial_numbers) :
    x ∈ (addAll l st).serial_numbers := by
  induction l generalizing st with
  | nil => exact hx
  | cons a l ih => exact ih (st.AddPlatform a) (addPlatform_mem_serials st a x hx)

lemma addAll_mem (l : List MicroDevice) (st : MicroTVMPlatforms)
    (d : MicroDevice) (hd : d ∈ l) :
    d.serial_number ∈ (addAll l st).serial_numbers := by
  induction l generalizing st with
  | nil => cases hd
  | cons a l ih =>
    rcases List.mem_cons.mp hd with h | h
    · subst h
      exact addAll_mem_serials_mono l (st.AddPlatform d) _
        (addPlatform_self_mem st d)
    · exact ih (st.AddPlatform a) h

lemma addAll_no_op (l : List MicroDevice) (st : MicroTVMPlatforms)
    (h : ∀ d ∈ l, d.serial_number ∈ st.serial_numbers) : addAll l st = st := by
  induction l generalizing st with
  | nil => rfl
  | cons a l ih =>
    have ha : st.AddPlatform a = st := by
      rw [MicroTVMPlatforms.AddPlatform, if_pos (h a (List.mem_cons_self a l))]
    show addAll l (st.AddPlatform a) = st
    rw [ha]
    exact ih st fun d hd => h d (List.mem_cons_of_mem a hd)

/-- C9. Registering a record whose serial is already known is a silent no-op
(the whole registry state is unchanged), and registering the same inventory
list twice yields exactly the registry obtained by registering it once. -/
theorem addPlatform_correct (st : MicroTVMPlatforms) (d : MicroDevice)
    (l : List MicroDevice) :
    (d.serial_number ∈ st.serial_numbers → st.AddPlatform d = st) ∧
    addAll l (addAll l st) = addAll l st := by
  refine ⟨fun h => ?_, ?_⟩
  · rw [MicroTVMPlatforms.AddPlatform, if_pos h]
  · exact addAll_no_op l (addAll l st) fun d' hd' => addAll_mem l st d' hd'

/-- Witness for C9: re-registering the already-known device changes nothing. -/
theorem addPlatform_correct_witness : regB.AddPlatform devA = regB :=
  (addPlatform_correct regB devA []).1 (by decide)

/-- C6 counterexample: two devices of type `due` registered with serials
`B` then `A` are listed in registration order `B, A`, not serial order:
the listing is not sorted by type then serial. -/
theorem listRows_counterexample :
    (listRows regC).map (fun r => r.serial) = ["B", "A"] ∧
    ¬ specOrdered (listRows regC) := by
  decide

/-- C6 amended. The listing is a permutation of the device rows sorted
case-insensitively by type ONLY; `sorted` is stable, so within equal types
rows keep registration order, which need not be serial order. -/
theorem listRows_sorted (st : MicroTVMPlatforms) :
    List.Sorted rowRel (listRows st) ∧
    (listRows st).Perm (st.platforms.map deviceRow) :=
  ⟨List.sorted_insertionSort rowRel _, List.perm_insertionSort rowRel _⟩

lemma lookup_setSession_self (ss : List (String × List String)) (k : String)
    (v : List String) : lookupSession (setSession ss k v) k = some v := by
  induction ss with
  | nil => simp [setSession, lookupSession]
  | cons kv rest ih =>
    by_cases h : kv.1 = k
    · simp [setSession, h, lookupSession]
    · simp [setSession, h, lookupSession, ih]

lemma lookup_setSession_other (ss : List (String × List String)) (k : String)
    (v : List String) (k2 : String) (h : k2 ≠ k) :
    lookupSession (setSession ss k v) k2 = lookupSession ss k2 := by
  induction ss with
  | nil => simp [setSession, lookupSession, Ne.symm h]
  | cons kv rest ih =>
    by_cases hk : kv.1 = k
    · simp [setSession, hk, lookupSession, Ne.symm h]
    · by_cases hk2 : kv.1 = k2
      · simp [setSession, hk, lookupSession, hk2, h]
      · simp [setSession, hk, lookupSession, hk2, ih]

/-- C4 counterexample: session `0000000123` is open and holds serial `SN1`;
when `RPCSessionRequest` happens to draw the same id, the existing session's
lease list is silently replaced by the empty list. -/
theorem sessionRequest_counterexample :
    lookupSession regD.sessions "0000000123" = some ["SN1"] ∧
    lookupSession (RPCSessionRequest regD "0000000123").sessions "0000000123" =
      some [] := by
  decide

/-- C4 amended. `RPCSessionRequest` stores an empty lease list under the
drawn id unconditionally: if the drawn id collides with an already-open
session, that session's lease list is silently overwritten with `[]`
(there is no collision guard); sessions under other ids are unchanged. -/
theorem sessionRequest_overwrites (st : MicroTVMPlatforms) (sid sid2 : String) :
    lookupSession (RPCSessionRequest st sid).sessions sid = some [] ∧
    (sid2 ≠ sid →
      lookupSession (RPCSessionRequest st sid).sessions sid2 =
        lookupSession st.sessions sid2) :=
  ⟨lookup_setSession_self st.sessions sid [],
   fun h => lookup_setSession_other st.sessions sid [] sid2 h⟩

/-- Witness for C4's amended theorem at the colliding concrete state. -/
theorem sessionRequest_overwrites_witness :
    lookupSession (RPCSessionRequest regD "0000000123").sessions "0000000123" =
      some [] ∧
    lookupSession (RPCSessionRequest regD "0000000123").sessions "0000000999" =
      lookupSession regD.sessions "0000000999" := by
  have h := sessionRequest_overwrites regD "0000000123" "0000000999"
  exact ⟨h.1, h.2 (by decide)⟩

lemma find?_append_first {α : Type} (p : α → Bool) (l1 : List α) (d : α)
    (l2 : List α) (h1 : ∀ x ∈ l1, p x = false) (hd : p d = true) :
    (l1 ++ d :: l2).find? p = some d := by
  induction l1 with
  | nil => simp [List.find?_cons, hd]
  | cons e l1 ih =>
    rw [List.cons_append, List.find?_cons_of_neg _ (by simp [h1 e (List.mem_cons_self e l1)])]
    exact ih fun x hx => h1 x (List.mem_cons_of_mem e hx)

/-- C10. `GetDeviceWithType(type)` returns `None` when no registered record
has that type — and then the `RPCGetDeviceTypeInfo` handler dereferences
`None` and raises — and otherwise returns (a snapshot of) the first record
of that type in registration order, with no condition on its lease or
enable state, which the handler answers with that record's VID and PID. -/
theorem getDeviceWithType_correct (st : MicroTVMPlatforms) (t : String) :
    ((∀ d ∈ st.platforms, d.type ≠ t) →
      st.GetDeviceWithType t = none ∧ RPCGetDeviceTypeInfo st t = .error ()) ∧
    (∀ l1 d l2, st.platforms = l1 ++ d :: l2 →
      (∀ d' ∈ l1, d'.type ≠ t) → d.type = t →
      st.GetDeviceWithType t = some d ∧
      RPCGetDeviceTypeInfo st t = .ok (d.vid_hex, d.pid_hex)) := by
  constructor
  · intro h
    have hn : st.GetDeviceWithType t = none := by
      rw [MicroTVMPlatforms.GetDeviceWithType, List.find?_eq_none]
      intro d hd
      simp [h d hd]
    exact ⟨hn, by rw [RPCGetDeviceTypeInfo, hn]⟩
  · intro l1 d l2 hsplit h1 hd
    have hs : st.GetDeviceWithType t = some d := by
      rw [MicroTVMPlatforms.GetDeviceWithType, hsplit]
      exact find?_append_first _ l1 d l2
        (fun x hx => by simp [h1 x hx]) (by simp [hd])
    exact ⟨hs, by rw [RPCGetDeviceTypeInfo, hs]⟩

/-- Witness for C10: no `due` device is registered in `regB`, so the type
lookup is `None` and the handler raises; the `nano33ble` lookup returns the
first (sole) record and the handler answers its VID and PID. -/
theorem getDeviceWithType_correct_witness :
    (regB.GetDeviceWithType "due" = none ∧
      RPCGetDeviceTypeInfo regB "due" = .error ()) ∧
    (regB.GetDeviceWithType "nano33ble" = some devA ∧
      RPCGetDeviceTypeInfo regB "nano33ble" = .ok ("1366", "0105")) := by
  constructor
  · exact (getDeviceWithType_correct regB "due").1 (by decide)
  · exact (getDeviceWithType_correct regB "nano33ble").2 [] devA []
      (by decide) (by decide) (by decide)

lemma candidates_spec (st : MicroTVMPlatforms) (t : String) (p : Nat × MicroDevice)
    (hp : p ∈ deviceCandidates st t) :
    eligible t p.2 = true ∧ st.platforms[p.1]? = some p.2 := by
  rw [deviceCandidates, List.mem_filter] at hp
  exact ⟨hp.2, List.mem_enum_iff_getElem?.mp hp.1⟩

lemma lookup_appendSession (ss : List (String × List String)) (k s : String)
    (v : List String) (h : lookupSession ss k = some v) :
    lookupSession (appendSession ss k s) k = some (v ++ [s]) := by
  induction ss with
  | nil => cases h
  | cons kv rest ih =>
    by_cases hk : kv.1 = k
    · rw [lookupSession, if_pos hk] at h
      cases h
      simp [appendSession, hk, lookupSession]
    · rw [lookupSession, if_neg hk] at h
      simp [appendSession, hk, lookupSession, ih h]

lemma getPlatform_nil (st : MicroTVMPlatforms) (t sess username : String) (k : Nat)
    (hc : deviceCandidates st t = []) :
    st.GetPlatform t sess username k = .unavailable st := by
  simp [MicroTVMPlatforms.GetPlatform, hc]

/-- C2. `Allocate(type, sessionId, requesterIdentity)` on an open session:
when no record is eligible (type match, unleased, enabled) it returns the
unavailable sentinel with the state unchanged; otherwise the `random.randint`
draw `k` selects candidate `k % |candidates|` — every eligible candidate, not
just the first fit — and exactly that record, at its position `i`, is marked
`leased = true` with `holder = requesterIdentity`; its serial is appended to
the session's list, and the returned device is a value copy of the record
(same serial, VID and PID), not an alias into the registry. -/
theorem getPlatform_correct (st : MicroTVMPlatforms) (t sess username : String)
    (k : Nat) (l : List String)
    (hs : lookupSession st.sessions sess = some l) :
    (deviceCandidates st t = [] →
      st.GetPlatform t sess username k = .unavailable st) ∧
    (∀ hc : deviceCandidates st t ≠ [],
      ∃ i d, (deviceCandidates st t).get ⟨k % (deviceCandidates st t).length,
          Nat.mod_lt _ (List.length_pos.mpr hc)⟩ = (i, d) ∧
        eligible t d = true ∧
        st.platforms[i]? = some d ∧
        st.GetPlatform t sess username k =
          .ok (markTaken d username)
            { st with
              platforms := st.platforms.set i (markTaken d username),
              sessions := appendSession st.sessions sess d.serial_number } ∧
        (markTaken d username).serial_number = d.serial_number ∧
        (markTaken d username).vid_hex = d.vid_hex ∧
        (markTaken d username).pid_hex = d.pid_hex ∧
        (markTaken d username).is_taken = true ∧
        (markTaken d username).user = some username ∧
        lookupSession (appendSession st.sessions sess d.serial_number) sess =
          some (l ++ [d.serial_number])) := by
  refine ⟨getPlatform_nil st t sess username k, fun hc => ?_⟩
  set c := (deviceCandidates st t).get ⟨k % (deviceCandidates st t).length,
    Nat.mod_lt _ (List.length_pos.mpr hc)⟩ with hcdef
  have hmem : c ∈ deviceCandidates st t := List.get_mem _ _ _
  obtain ⟨helig, hget⟩ := candidates_spec st t c hmem
  refine ⟨c.1, c.2, rfl, helig, hget, ?_, rfl, rfl, rfl, rfl, rfl,
    lookup_appendSession st.sessions sess c.2.serial_number l hs⟩
  rw [MicroTVMPlatforms.GetPlatform]
  simp only [dif_neg hc, hs, ← hcdef]

/-- Witness for C2: allocating the sole `nano33ble` device in `regA` for
alice under session `0000000100` yields exactly the allocated state `regA1`. -/
theorem getPlatform_correct_witness :
    regA.GetPlatform "nano33ble" "0000000100" "alice" 0 =
      .ok (markTaken devA "alice") regA1 := by
  obtain ⟨i, d, hget, -, -, hres, -⟩ :=
    (getPlatform_correct regA "nano33ble" "0000000100" "alice" 0 []
      (by decide)).2 (by decide)
  have h2 : ((0, devA) : Nat × MicroDevice) = (i, d) := hget
  cases h2
  exact hres.trans (by decide)

/-- C5 counterexample: allocating with the never-opened session `0000000999`
raises `KeyError`, and the selected device record has already been marked
leased with the holder set — the registry state is mutated, not a no-op. -/
theorem getPlatform_unknown_session_counterexample :
    regB.GetPlatform "nano33ble" "0000000999" "alice" 0 =
      .keyError ⟨[markTaken devA "alice"], ["SN1"], []⟩ ∧
    (markTaken devA "alice").is_taken = true := by
  decide

/-- C5 amended. `Allocate` with a sessionId that was never opened is NOT a
state-preserving no-op: when no candidate is eligible it does return the
unavailable sentinel with no state change, but when a candidate exists the
call raises `KeyError` (from the session-table lookup) only AFTER marking
the selected record `leased = true` with the holder set, so the failed call
leaves that record leased. -/
theorem getPlatform_unknown_session (st : MicroTVMPlatforms)
    (t sess username : String) (k : Nat)
    (hs : lookupSession st.sessions sess = none) :
    (deviceCandidates st t = [] →
      st.GetPlatform t sess username k = .unavailable st) ∧
    (∀ hc : deviceCandidates st t ≠ [],
      ∃ i d, (deviceCandidates st t).get ⟨k % (deviceCandidates st t).length,
          Nat.mod_lt _ (List.length_pos.mpr hc)⟩ = (i, d) ∧
        st.platforms[i]? = some d ∧
        st.GetPlatform t sess username k =
          .keyError
            { st with platforms := st.platforms.set i (markTaken d username) } ∧
        (markTaken d username).is_taken = true ∧
        (markTaken d username).user = some username) := by
  refine ⟨getPlatform_nil st t sess username k, fun hc => ?_⟩
  set c := (deviceCandidates st t).get ⟨k % (deviceCandidates st t).length,
    Nat.mod_lt _ (List.length_pos.mpr hc)⟩ with hcdef
  have hmem : c ∈ deviceCandidates st t := List.get_mem _ _ _
  obtain ⟨-, hget⟩ := candidates_spec st t c hmem
  refine ⟨c.1, c.2, rfl, hget, ?_, rfl, rfl⟩
  rw [MicroTVMPlatforms.GetPlatform]
  simp only [dif_neg hc, hs, ← hcdef]

/-- Witness for C5's amended theorem at the concrete stranding state. -/
theorem getPlatform_unknown_session_witness :
    regB.GetPlatform "nano33ble" "0000000999" "alice" 0 =
      .keyError ⟨[markTaken devA "alice"], ["SN1"], []⟩ := by
  obtain ⟨i, d, hget, -, hres, -, -⟩ :=
    (getPlatform_unknown_session regB "nano33ble" "0000000999" "alice" 0
      (by decide)).2 (by decide)
  have h2 : ((0, devA) : Nat × MicroDevice) = (i, d) := hget
  cases h2
  exact hres.trans (by decide)

lemma releaseList_not_taken (s : String) (ps : List MicroDevice)
    (hnd : (ps.map (fun d => d.serial_number)).Nodup) :
    ∀ d ∈ releaseList s ps, d.serial_number = s → d.is_taken = false := by
  induction ps with
  | nil => intro d hd; cases hd
  | cons e ds ih =>
    rw [List.map_cons, List.nodup_cons] at hnd
    by_cases he : e.serial_number = s
    · rw [releaseList, if_pos he]
      intro d hd hds
      rcases List.mem_cons.mp hd with h | h
      · subst h; rfl
      · exfalso
        have hm : d.serial_number ∈ ds.map (fun d => d.serial_number) :=
          List.mem_map_of_mem _ h
        rw [hds, ← he] at hm
        exact hnd.1 hm
    · rw [releaseList, if_neg he]
      intro d hd hds
      rcases List.mem_cons.mp hd with h | h
      · subst h; exact absurd hds he
      · exact ih hnd.2 d h hds

/-- C1 counterexample, along a concretely reachable execution: allocate the
sole device to session `0000000100` (the invariant holds there), then release
it individually. The serial stays in the session's lease list while the
record has `leased = false`, so the invariant is NOT preserved by `Release`. -/
theorem sessionInv_counterexample :
    regA.GetPlatform "nano33ble" "0000000100" "alice" 0 =
      .ok (markTaken devA "alice") regA1 ∧
    sessionInvB regA1 = true ∧
    sessionInvB (regA1.ReleasePlatform "SN1") = false ∧
    lookupSession (regA1.ReleasePlatform "SN1").sessions "0000000100" =
      some ["SN1"] ∧
    (regA1.ReleasePlatform "SN1").platforms.all (fun d => !d.is_taken) = true := by
  decide

/-- C1 amended. `Release(serial)` leaves every session's lease list exactly
as it was, so the session-list invariant is not preserved by an individual
`Release`: when device serials are distinct and the released serial is
recorded in some session's list, the state right after the release violates
the invariant (the serial is still listed while its record is unleased).
`Allocate` itself does establish the correspondence when it succeeds. -/
theorem sessionInv_not_preserved (st : MicroTVMPlatforms) (s : String) :
    (st.ReleasePlatform s).sessions = st.sessions ∧
    ((st.platforms.map (fun d => d.serial_number)).Nodup →
      (∃ kv ∈ st.sessions, s ∈ kv.2) →
      sessionInvB (st.ReleasePlatform s) = false) := by
  refine ⟨rfl, fun hnd h => ?_⟩
  obtain ⟨kv, hkv, hskv⟩ := h
  apply Bool.eq_false_iff.mpr
  intro htrue
  rw [sessionInvB, List.all_eq_true] at htrue
  have h1 := htrue _ hkv
  rw [List.all_eq_true] at h1
  have h2 := h1 _ hskv
  rw [List.any_eq_true] at h2
  obtain ⟨d, hd, hdp⟩ := h2
  simp only [Bool.and_eq_true, decide_eq_true_eq] at hdp
  have hfree := releaseList_not_taken s st.platforms hnd d hd hdp.1
  rw [hfree] at hdp
  exact Bool.false_ne_true hdp.2

/-- Witness for C1's amended theorem at the allocated state `regA1`. -/
theorem sessionInv_not_preserved_witness :
    sessionInvB (regA1.ReleasePlatform "SN1") = false :=
  (sessionInv_not_preserved regA1 "SN1").2 (by decide)
    ⟨("0000000100", ["SN1"]), by decide, by decide⟩

lemma enableList_nomatch (s : String) (b : Bool) (ps : List MicroDevice)
    (h : ∀ d ∈ ps, d.serial_number ≠ s) : enableList s b ps = (false, ps) := by
  induction ps with
  | nil => rfl
  | cons d ds ih =>
    rw [enableList, if_neg (h d (List.mem_cons_self d ds))]
    simp only [ih fun d' hd' => h d' (List.mem_cons_of_mem d hd')]

lemma enableList_first (s : String) (b : Bool) (l1 : List MicroDevice)
    (d : MicroDevice) (l2 : List MicroDevice)
    (h1 : ∀ d' ∈ l1, d'.serial_number ≠ s) (hd : d.serial_number = s) :
    enableList s b (l1 ++ d :: l2) = (true, l1 ++ d.Enable b :: l2) := by
  induction l1 with
  | nil => simp [enableList, hd]
  | cons e l1 ih =>
    rw [List.cons_append, enableList, if_neg (h1 e (List.mem_cons_self e l1))]
    simp only [ih fun d' hd' => h1 d' (List.mem_cons_of_mem e hd'), List.cons_append]

lemma enableList_disable_blocks (s t : String) (ps : List MicroDevice)
    (hnd : (ps.map (fun d => d.serial_number)).Nodup)
    (hall : ∀ d ∈ ps, d.type = t → d.serial_number = s) :
    ∀ d' ∈ (enableList s false ps).2, eligible t d' = false := by
  induction ps with
  | nil => intro d' hd'; cases hd'
  | cons e ds ih =>
    rw [List.map_cons, List.nodup_cons] at hnd
    by_cases he : e.serial_number = s
    · rw [enableList, if_pos he]
      intro d' hd'
      rcases List.mem_cons.mp hd' with h | h
      · subst h; simp [eligible, MicroDevice.Enable]
      · by_cases ht : d'.type = t
        · exfalso
          have hm : d'.serial_number ∈ ds.map (fun d => d.serial_number) :=
            List.mem_map_of_mem _ h
          rw [hall d' (List.mem_cons_of_mem e h) ht, ← he] at hm
          exact hnd.1 hm
        · simp [eligible, ht]
    · rw [enableList, if_neg he]
      intro d' hd'
      rcases List.mem_cons.mp hd' with h | h
      · subst h
        by_cases ht : d'.type = t
        · exact absurd (hall d' (List.mem_cons_self d' ds) ht) he
        · simp [eligible, ht]
      · exact ih hnd.2 (fun d hd htt => hall d (List.mem_cons_of_mem e hd) htt) d' h

lemma nodup_split_of_mem (ps : List MicroDevice) (d : MicroDevice)
    (hd : d ∈ ps) (hnd : (ps.map (fun x => x.serial_number)).Nodup) :
    ∃ l1 l2, ps = l1 ++ d :: l2 ∧
      ∀ d' ∈ l1, d'.serial_number ≠ d.serial_number := by
  obtain ⟨l1, l2, rfl⟩ := List.append_of_mem hd
  refine ⟨l1, l2, rfl, fun d' hd' he => ?_⟩
  rw [List.map_append, List.nodup_append] at hnd
  exact hnd.2.2 (List.mem_map_of_mem _ hd')
    (he ▸ List.mem_map_of_mem (fun x => x.serial_number)
      (List.mem_cons_self d l2))

/-- C7. `Enable(serial, status)` changes only the first matching record's
enabled flag — its lease mark, holder, serial and type are untouched, all
other records are untouched, and the session table and serial set are
untouched; an unknown serial reports failure and changes nothing. After
`Disable(serial)` on the sole device of a type (distinct serials), `Allocate`
for that type returns the unavailable sentinel with no state change, while
the holder keeps the lease; once `Enable(serial)` restores the (free) device,
`Allocate` for that type no longer returns unavailable. -/
theorem enablePlatform_correct (st : MicroTVMPlatforms) (s : String) (b : Bool)
    (t : String) :
    ((st.EnablePlatform s b).2.sessions = st.sessions ∧
      (st.EnablePlatform s b).2.serial_numbers = st.serial_numbers) ∧
    ((∀ d ∈ st.platforms, d.serial_number ≠ s) →
      st.EnablePlatform s b = (false, st)) ∧
    (∀ l1 d l2, st.platforms = l1 ++ d :: l2 →
      (∀ d' ∈ l1, d'.serial_number ≠ s) → d.serial_number = s →
      st.EnablePlatform s b =
        (true, { st with platforms := l1 ++ d.Enable b :: l2 }) ∧
      (d.Enable b).is_taken = d.is_taken ∧ (d.Enable b).user = d.user ∧
      (d.Enable b).serial_number = d.serial_number ∧
      (d.Enable b).type = d.type ∧ (d.Enable b).enabled = b) ∧
    ((st.platforms.map (fun d => d.serial_number)).Nodup →
      (∀ d ∈ st.platforms, d.type = t → d.serial_number = s) →
      ∀ sess user k,
        (st.EnablePlatform s false).2.GetPlatform t sess user k =
          .unavailable (st.EnablePlatform s false).2) ∧
    ((st.platforms.map (fun d => d.serial_number)).Nodup →
      ∀ d ∈ st.platforms, d.serial_number = s → d.type = t → d.is_taken = false →
      ∀ sess user k st',
        ((st.EnablePlatform s false).2.EnablePlatform s true).2.GetPlatform
          t sess user k ≠ .unavailable st') := by
  refine ⟨⟨rfl, rfl⟩, ?_, ?_, ?_, ?_⟩
  · intro h
    rw [MicroTVMPlatforms.EnablePlatform]
    simp only [enableList_nomatch s b st.platforms h]
  · intro l1 d l2 hsplit h1 hd
    refine ⟨?_, rfl, rfl, rfl, rfl, rfl⟩
    rw [MicroTVMPlatforms.EnablePlatform, hsplit,
      enableList_first s b l1 d l2 h1 hd]
  · intro hnd hall sess user k
    apply getPlatform_nil
    rw [deviceCandidates, List.filter_eq_nil_iff]
    intro p hp
    have hmem : p.2 ∈ (st.EnablePlatform s false).2.platforms :=
      List.getElem?_mem (List.mem_enum_iff_getElem?.mp hp)
    have := enableList_disable_blocks s t st.platforms hnd hall p.2 hmem
    simp [this]
  · intro hnd d hd hds hdt hfree sess user k st'
    obtain ⟨l1, l2, hsplit, h1⟩ := nodup_split_of_mem st.platforms d hd hnd
    rw [hds] at h1
    have st1eq : (st.EnablePlatform s false).2.platforms =
        l1 ++ d.Enable false :: l2 := by
      rw [MicroTVMPlatforms.EnablePlatform, hsplit,
        enableList_first s false l1 d l2 h1 hds]
    have st2eq : ((st.EnablePlatform s false).2.EnablePlatform s true).2.platforms =
        l1 ++ (d.Enable false).Enable true :: l2 := by
      rw [MicroTVMPlatforms.EnablePlatform, st1eq,
        enableList_first s true l1 (d.Enable false) l2 h1 hds]
    have helig : eligible t ((d.Enable false).Enable true) = true := by
      simp [eligible, MicroDevice.Enable, hdt, hfree]
    have hmem2 : (d.Enable false).Enable true ∈
        ((st.EnablePlatform s false).2.EnablePlatform s true).2.platforms := by
      rw [st2eq]
      exact List.mem_append_right _ (List.mem_cons_self _ _)
    obtain ⟨i, hi⟩ := List.mem_iff_getElem?.mp hmem2
    have hc : deviceCandidates
        ((st.EnablePlatform s false).2.EnablePlatform s true).2 t ≠ [] := by
      apply List.ne_nil_of_mem (a := (i, (d.Enable false).Enable true))
      rw [deviceCandidates, List.mem_filter]
      exact ⟨List.mem_enum_iff_getElem?.mpr hi, helig⟩
    rw [MicroTVMPlatforms.GetPlatform]
    simp only [dif_neg hc]
    split <;> simp

/-- Witness for C7: disabling the sole free `nano33ble` device makes
allocation unavailable; re-enabling it makes allocation succeed again. -/
theorem enablePlatform_correct_witness :
    (regB.EnablePlatform "SN1" false).2.GetPlatform
      "nano33ble" "0000000100" "alice" 0 =
      .unavailable (regB.EnablePlatform "SN1" false).2 ∧
    ((regB.EnablePlatform "SN1" false).2.EnablePlatform "SN1" true).2.GetPlatform
      "nano33ble" "0000000100" "alice" 0 ≠ .unavailable regB := by
  have h := enablePlatform_correct regB "SN1" false "nano33ble"
  exact ⟨h.2.2.2.1 (by decide) (by decide) "0000000100" "alice" 0,
    h.2.2.2.2 (by decide) devA (by decide) (by decide) (by decide) (by decide)
      "0000000100" "alice" 0 regB⟩

end MicrotvmDevice
